import Mathlib

/-!
Verification of the golf-itinerary single-page application (src/app/page.tsx).

The development shallowly embeds the pure core of the page: JS strings are
Lean `String`s, JS `Date` values are `Option Int` (seconds since the Unix
epoch; `none` models an Invalid Date, whose time value is NaN), and the
side-effecting wrappers (DOM download, localStorage) are stripped down to
the pure serialization / state-transformation parts they contain.

Modelling conventions, used throughout:
* `new Date(string)` is modelled by `parseJSDate`, which accepts the
  ECMA-262 date-time string format restricted to the full UTC form
  `YYYY-MM-DDTHH:MM:SSZ` (the only form the application ever produces or
  stores); every other string yields `none` (Invalid Date).
* `Date` accessors (`getUTCFullYear` …) are computed from the epoch value
  with the standard proleptic-Gregorian civil-from-days algorithm.
* `toLocaleDateString("en-US", { timeZone: "Europe/Dublin", … })` is
  modelled by applying the Europe/Dublin UTC offset (+1h between 01:00 UTC
  on the last Sunday of March and 01:00 UTC on the last Sunday of October,
  the EU rule, +0h otherwise) and rendering with the fixed en-US short
  month / short weekday names; on an Invalid Date it returns the string
  "Invalid Date", as in the browser.
* `Math.random().toString(36).slice(2)` (the synthetic UID fallback) is an
  arbitrary string parameter `rnd`; a real draw from (0,1) always yields a
  non-empty newline-free base-36 digit string.
* `new Date()` (the DTSTAMP clock read) is an explicit parameter `now`.
-/

/-- Concatenation of two JS strings (the `+` / template-literal splice). -/
def scat (a b : String) : String := ⟨a.data ++ b.data⟩

/-- Model of `Array.prototype.join(sep)`. -/
def joinSep (sep : String) : List String → String
  | [] => ""
  | [s] => s
  | s :: rest => scat s (scat sep (joinSep sep rest))

/-- Split a character list at every occurrence of `c`. -/
def splitOnChar (c : Char) : List Char → List (List Char)
  | [] => [[]]
  | a :: rest =>
    match splitOnChar c rest with
    | [] => [[]]
    | g :: gs => if a = c then [] :: g :: gs else (a :: g) :: gs

/-- Lines of a string: split at every newline character. -/
def linesOf (s : String) : List String := (splitOnChar '\n' s.data).map String.mk

/-- Boolean test that `p` is an initial segment of `l`. -/
def startsList : List Char → List Char → Bool
  | [], _ => true
  | _ :: _, [] => false
  | a :: ps, b :: bs => a == b && startsList ps bs

/-- Boolean test that `p` occurs contiguously inside `l`. -/
def withinList (p : List Char) : List Char → Bool
  | [] => startsList p []
  | b :: bs => startsList p (b :: bs) || withinList p bs

/-- Model of `String.prototype.includes`: `hay.includes(needle)`. -/
def includesStr (hay needle : String) : Bool := withinList needle.data hay.data

/-- Model of `String.prototype.toLowerCase` (ASCII case folding; the
application only ever compares ASCII search text). -/
def lowerStr (s : String) : String := ⟨s.data.map Char.toLower⟩

/-- White-space test of `String.prototype.trim` (restricted to the ASCII
white-space characters; the full JS set also has Unicode spaces). -/
def isJsSpace (c : Char) : Bool :=
  c = ' ' ∨ c = '\t' ∨ c = '\n' ∨ c = '\r' ∨ c = '\x0b' ∨ c = '\x0c'

/-- Model of `String.prototype.trim`: strip leading and trailing
white-space. -/
def trimStr (s : String) : String :=
  ⟨((s.data.dropWhile isJsSpace).reverse.dropWhile isJsSpace).reverse⟩

/-- Model of `startsWith`: does `s` begin with `pre`. -/
def startsStr (pre s : String) : Bool := startsList pre.data s.data

/-- Number of lines in `lines` that begin with `pre`. -/
def countStarting (pre : String) (lines : List String) : Nat :=
  (lines.filter (fun l => startsStr pre l)).length

/-- Model of `String.prototype.replace(/\n/g, "\\n")`: every newline becomes
the two-character escape `\n`. -/
def escapeNl (s : String) : String :=
  ⟨s.data.flatMap (fun c => if c = '\n' then ['\\', 'n'] else [c])⟩

/-- Model of `String.prototype.replace(/\n/g, " ")`. -/
def nlToSpace (s : String) : String :=
  ⟨s.data.map (fun c => if c = '\n' then ' ' else c)⟩

/-- Fuel-driven digit expansion (structural recursion on the fuel, so that
the kernel can evaluate it); with fuel at least `n` it yields the decimal
digits of `n`, most significant first, and the empty list for 0. -/
def decDigitsF : Nat → Nat → List Char
  | 0, _ => []
  | _ + 1, 0 => []
  | f + 1, n + 1 => decDigitsF f ((n + 1) / 10) ++ [Nat.digitChar ((n + 1) % 10)]

/-- Decimal digits of a natural number, most significant first (empty for 0). -/
def decDigits (n : Nat) : List Char := decDigitsF n n

/-- Model of JS `String(n)` for a non-negative number. -/
def natToDec (n : Nat) : String := if n = 0 then "0" else ⟨decDigits n⟩

/-- Model of JS `String(n)` for an integer. -/
def intToDec (i : Int) : String :=
  if i < 0 then scat "-" (natToDec i.natAbs) else natToDec i.toNat

/-- Model of `String.prototype.padStart(2, "0")`. -/
def padStart2 (s : String) : String :=
  ⟨List.replicate (2 - s.data.length) '0' ++ s.data⟩

/-- Civil proleptic-Gregorian date (year, month 1-12, day 1-31) of a day
count relative to 1970-01-01 (Howard Hinnant's `civil_from_days`); this is
how the `Date.getUTC*` accessors are computed from the time value. -/
def civilOfDays (z : Int) : Int × Nat × Nat :=
  let zz := z + 719468
  let era := Int.ediv zz 146097
  let doe : Nat := (Int.emod zz 146097).toNat
  let yoe : Nat := (doe - doe / 1460 + doe / 36524 - doe / 146096) / 365
  let doy : Nat := doe - (365 * yoe + yoe / 4 - yoe / 100)
  let mp : Nat := (5 * doy + 2) / 153
  let d : Nat := doy - (153 * mp + 2) / 5 + 1
  let m : Nat := if mp < 10 then mp + 3 else mp - 9
  (((yoe : Int) + era * 400 + (if m ≤ 2 then 1 else 0)), m, d)

/-- Day count relative to 1970-01-01 of a civil proleptic-Gregorian date
(Howard Hinnant's `days_from_civil`). -/
def daysOfCivil (y : Int) (m d : Nat) : Int :=
  let y2 := if m ≤ 2 then y - 1 else y
  let era := Int.ediv y2 400
  let yoe : Nat := (Int.emod y2 400).toNat
  let mp : Nat := (m + 9) % 12
  let doy : Nat := (153 * mp + 2) / 5 + d - 1
  let doe : Nat := 365 * yoe + yoe / 4 - yoe / 100 + doy
  era * 146097 + (doe : Int) - 719468

/-- Epoch day of a time value (floor division, as in the Date accessors). -/
def epochDays (t : Int) : Int := Int.ediv t 86400

/-- Second of day of a time value, in 0..86399. -/
def secOfDay (t : Int) : Nat := (Int.emod t 86400).toNat

/-- UTC calendar year of a time value (`getUTCFullYear`). -/
def utcYear (t : Int) : Int := (civilOfDays (epochDays t)).1

/-- UTC month 1-12 of a time value (`getUTCMonth() + 1`). -/
def utcMonth (t : Int) : Nat := (civilOfDays (epochDays t)).2.1

/-- UTC day of month of a time value (`getUTCDate`). -/
def utcDay (t : Int) : Nat := (civilOfDays (epochDays t)).2.2

/-- Numeric value of a decimal digit character. -/
def digitVal (c : Char) : Nat := c.toNat - '0'.toNat

/-- Gregorian leap-year test. -/
def isLeap (y : Nat) : Bool := y % 4 = 0 && (y % 100 ≠ 0 || y % 400 = 0)

/-- Days in a month (month 1-12). -/
def daysInMonth (y m : Nat) : Nat :=
  if m = 2 then (if isLeap y then 29 else 28)
  else if m = 4 ∨ m = 6 ∨ m = 9 ∨ m = 11 then 30 else 31

/-- Model of `new Date(string)` restricted to the full-UTC ECMA-262 form
`YYYY-MM-DDTHH:MM:SSZ` (the only shape of date string the application
produces or stores); any other string is an Invalid Date (`none`).  The
result is the time value in seconds since the Unix epoch. -/
def parseJSDate (s : String) : Option Int :=
  match s.data with
  | [y1, y2, y3, y4, '-', m1, m2, '-', d1, d2, 'T',
     h1, h2, ':', n1, n2, ':', s1, s2, 'Z'] =>
    if [y1, y2, y3, y4, m1, m2, d1, d2, h1, h2, n1, n2, s1, s2].all Char.isDigit then
      let y := 1000 * digitVal y1 + 100 * digitVal y2 + 10 * digitVal y3 + digitVal y4
      let mo := 10 * digitVal m1 + digitVal m2
      let da := 10 * digitVal d1 + digitVal d2
      let h := 10 * digitVal h1 + digitVal h2
      let mi := 10 * digitVal n1 + digitVal n2
      let se := 10 * digitVal s1 + digitVal s2
      if 1 ≤ mo ∧ mo ≤ 12 ∧ 1 ≤ da ∧ da ≤ daysInMonth y mo ∧ h ≤ 23 ∧ mi ≤ 59 ∧ se ≤ 59 then
        some (daysOfCivil (y : Int) mo da * 86400 + (h * 3600 + mi * 60 + se : Nat))
      else none
    else none
  | _ => none

/-- Day of month of the last Sunday of month `m` (March or October) of year
`y`; weekday is computed from the epoch day count (1970-01-01 was a
Thursday, index 4 counting Sunday as 0). -/
def lastSundayDay (y : Int) (m : Nat) : Nat :=
  31 - (Int.emod (daysOfCivil y m 31 + 4) 7).toNat

/-- Europe/Dublin UTC offset in seconds at a given instant: +1h (Irish
Standard Time) between 01:00 UTC on the last Sunday of March and 01:00 UTC
on the last Sunday of October (the EU rule in force for the dates the
application handles), +0h otherwise. -/
def dublinOffset (t : Int) : Int :=
  let y := utcYear t
  let dstStart := daysOfCivil y 3 (lastSundayDay y 3) * 86400 + 3600
  let dstEnd := daysOfCivil y 10 (lastSundayDay y 10) * 86400 + 3600
  if dstStart ≤ t ∧ t < dstEnd then 3600 else 0

/-- Europe/Dublin calendar year of an instant. -/
def dublinYear (t : Int) : Int := (civilOfDays (epochDays (t + dublinOffset t))).1

/-- Europe/Dublin month 1-12 of an instant. -/
def dublinMonth (t : Int) : Nat := (civilOfDays (epochDays (t + dublinOffset t))).2.1

/-- Europe/Dublin day of month of an instant. -/
def dublinDay (t : Int) : Nat := (civilOfDays (epochDays (t + dublinOffset t))).2.2

/-- Europe/Dublin weekday of an instant, Sunday = 0. -/
def dublinWeekday (t : Int) : Nat :=
  (Int.emod (epochDays (t + dublinOffset t) + 4) 7).toNat

/-- Short en-US month name, month 1-12 (`month: "short"`). -/
def monthShortName (m : Nat) : String :=
  match m with
  | 1 => "Jan" | 2 => "Feb" | 3 => "Mar" | 4 => "Apr" | 5 => "May" | 6 => "Jun"
  | 7 => "Jul" | 8 => "Aug" | 9 => "Sep" | 10 => "Oct" | 11 => "Nov" | 12 => "Dec"
  | _ => ""

/-- Short en-US weekday name, Sunday = 0 (`weekday: "short"`). -/
def weekdayShortName (w : Nat) : String :=
  match w with
  | 0 => "Sun" | 1 => "Mon" | 2 => "Tue" | 3 => "Wed" | 4 => "Thu" | 5 => "Fri"
  | 6 => "Sat" | _ => ""

/-- EventItem of the itinerary data model (`interface EventItem`); optional
fields are `Option`s, `none` modelling an absent property. -/
structure EventItem where
  id : String
  title : String
  location : String
  start : String
  «end» : String
  notes : Option String := none
  mapQuery : Option String := none
  url : Option String := none
  tags : Option (List String) := none
deriving DecidableEq

/-- DayPlan of the itinerary data model (`interface DayPlan`). -/
structure DayPlan where
  id : String
  dateLabel : Option String := none
  city : String
  notes : Option String := none
  events : List EventItem
deriving DecidableEq

/-- LodgingItem of the itinerary data model (`interface LodgingItem`). -/
structure LodgingItem where
  nights : String
  name : String
  city : String
deriving DecidableEq

/-- Itinerary root document (`interface Itinerary`). -/
structure Itinerary where
  tripTitle : String
  subtitle : String
  homeBase : String
  participants : List String
  days : List DayPlan
  lodging : List LodgingItem
  tips : List String
deriving DecidableEq

/-- Embedding of `toICSDate(date)`: UTC basic-format timestamp of a `Date`.
On a valid date the source renders `${yyyy}${mm}${dd}T${hh}${min}${ss}Z`
with the two-digit fields padded via `padStart(2, "0")` and the year
unpadded; on an Invalid Date every `getUTC*` accessor is NaN, `String(NaN)`
is `"NaN"`, and padding leaves it unchanged, so the result is the literal
`NaNNaNNaNTNaNNaNNaNZ`. -/
def toICSDate : Option Int → String
  | none => "NaNNaNNaNTNaNNaNNaNZ"
  | some t =>
    let s := secOfDay t
    scat (intToDec (utcYear t))
      (scat (padStart2 (natToDec (utcMonth t)))
        (scat (padStart2 (natToDec (utcDay t)))
          (scat "T"
            (scat (padStart2 (natToDec (s / 3600)))
              (scat (padStart2 (natToDec (s / 60 % 60)))
                (scat (padStart2 (natToDec (s % 60))) "Z"))))))

/-- Embedding of `buildICSEvent(evt)`.  `now` is the `new Date()` clock read
used for DTSTAMP; `rnd` is the value of `Math.random().toString(36).slice(2)`
drawn by this call (used only when `evt.id` is falsy). -/
def buildICSEvent (now : Int) (rnd : String) (evt : EventItem) : String :=
  let uid := scat (if evt.id = "" then rnd else evt.id) "@golf-itin"
  let dtStart := toICSDate (parseJSDate evt.start)
  let dtEnd := toICSDate (parseJSDate evt.«end»)
  let desc := escapeNl (evt.notes.getD "")
  let loc := escapeNl evt.location
  let title := nlToSpace (if evt.title = "" then "Event" else evt.title)
  joinSep "\n"
    ["BEGIN:VEVENT",
     scat "UID:" uid,
     scat "DTSTAMP:" (toICSDate (some now)),
     scat "DTSTART:" dtStart,
     scat "DTEND:" dtEnd,
     scat "SUMMARY:" title,
     scat "LOCATION:" loc,
     scat "DESCRIPTION:" desc,
     "END:VEVENT"]

/-- Embedding of the pure serialization step of `downloadICS(itin,
singleEvent?)`: the `ics` string handed to the Blob (the Blob/anchor
download itself is a browser side effect outside the model).  `rnds i` is
the `Math.random` draw of the i-th `buildICSEvent` call of this export. -/
def downloadICSText (now : Int) (rnds : Nat → String) (itin : Itinerary)
    (singleEvent : Option EventItem) : String :=
  let header := ["BEGIN:VCALENDAR", "VERSION:2.0", "PRODID:-//Yu Ritual//Golf Trip//EN"]
  let footer := ["END:VCALENDAR"]
  let body :=
    match singleEvent with
    | some evt => buildICSEvent now (rnds 0) evt
    | none =>
      joinSep "\n"
        (((itin.days.flatMap (fun d => d.events)).enum).map
          (fun p => buildICSEvent now (rnds p.1) p.2))
  joinSep "\n" (header ++ [body] ++ footer)

/-- Formatting part shared by `formatDayLabel`: `toLocaleDateString("en-US",
{ timeZone: "Europe/Dublin", weekday: "short", month: "short", day:
"numeric" })`, rendering `"Sat, Sep 6"`, or `"Invalid Date"` on an Invalid
Date. -/
def fmtWkdMonDay : Option Int → String
  | none => "Invalid Date"
  | some t =>
    scat (weekdayShortName (dublinWeekday t))
      (scat ", "
        (scat (monthShortName (dublinMonth t))
          (scat " " (natToDec (dublinDay t)))))

/-- Valid start instants of the events of a day: every event start parsed,
invalid dates discarded (the `.map(e => new Date(e.start)).filter(d =>
!isNaN(d.getTime()))` pipeline of `formatDayLabel`). -/
def validStarts (day : DayPlan) : List Int :=
  (day.events.map (fun e => parseJSDate e.start)).filterMap id

/-- Ascending insertion into a sorted list. -/
def insertAsc (x : Int) : List Int → List Int
  | [] => [x]
  | y :: ys => if x ≤ y then x :: y :: ys else y :: insertAsc x ys

/-- Ascending sort, modelling `Array.prototype.sort((a, b) => a.getTime() -
b.getTime())` (only the head of the result is ever used). -/
def sortAsc : List Int → List Int
  | [] => []
  | x :: xs => insertAsc x (sortAsc xs)

/-- Embedding of `formatDayLabel(day)`: earliest valid event start, else the
day identifier interpreted as midnight UTC, rendered in Europe/Dublin. -/
def formatDayLabel (day : DayPlan) : String :=
  let dates := sortAsc (validStarts day)
  let src : Option Int :=
    match dates with
    | [] => parseJSDate (scat day.id "T00:00:00Z")
    | d :: _ => some d
  fmtWkdMonDay src

/-- Per-day start collection of `formatTripDateRange`: for a day with
events, every event with a truthy (non-empty) `start` contributes its
parsed start; an event-free day with a truthy id contributes its identifier
parsed as midnight UTC. -/
def dayStarts (day : DayPlan) : List (Option Int) :=
  if day.events.length ≠ 0 then
    (day.events.filter (fun e => e.start ≠ "")).map (fun e => parseJSDate e.start)
  else if day.id ≠ "" then [parseJSDate (scat day.id "T00:00:00Z")] else []

/-- Per-day end collection of `formatTripDateRange`, symmetric to
`dayStarts`. -/
def dayEnds (day : DayPlan) : List (Option Int) :=
  if day.events.length ≠ 0 then
    (day.events.filter (fun e => e.«end» ≠ "")).map (fun e => parseJSDate e.«end»)
  else if day.id ≠ "" then [parseJSDate (scat day.id "T00:00:00Z")] else []

/-- All collected starts of a day list (`starts` array of
`formatTripDateRange`). -/
def collectStarts (days : List DayPlan) : List (Option Int) :=
  days.flatMap dayStarts

/-- All collected ends of a day list (`ends` array of
`formatTripDateRange`). -/
def collectEnds (days : List DayPlan) : List (Option Int) :=
  days.flatMap dayEnds

/-- Binary minimum of two JS time values: NaN (an Invalid Date) poisons the
result, as in `Math.min`. -/
def optMin2 (x y : Option Int) : Option Int :=
  match x, y with
  | some a, some b => some (min a b)
  | _, _ => none

/-- Binary maximum of two JS time values, NaN-poisoning like `Math.max`. -/
def optMax2 (x y : Option Int) : Option Int :=
  match x, y with
  | some a, some b => some (max a b)
  | _, _ => none

/-- Model of `new Date(Math.min(...dates.map(d => d.getTime())))` on a
non-empty list: an Invalid Date (NaN time value) poisons the minimum. -/
def jsMinD : List (Option Int) → Option Int
  | [] => none
  | [x] => x
  | x :: y :: ys => optMin2 x (jsMinD (y :: ys))

/-- Model of `new Date(Math.max(...))`, symmetric to `jsMinD`. -/
def jsMaxD : List (Option Int) → Option Int
  | [] => none
  | [x] => x
  | x :: y :: ys => optMax2 x (jsMaxD (y :: ys))

/-- Model of `start.getUTCFullYear() === end.getUTCFullYear()`: NaN compares
false to everything, so the comparison is false unless both dates are
valid. -/
def jsSameUTCYear : Option Int → Option Int → Bool
  | some a, some b => utcYear a == utcYear b
  | _, _ => false

/-- Model of `dt.toLocaleDateString("en-US", { timeZone: "Europe/Dublin",
month: "short" })`, the local `monthShort` helper. -/
def tldsMonthShort : Option Int → String
  | none => "Invalid Date"
  | some t => monthShortName (dublinMonth t)

/-- Model of the local `dayNum` helper (`day: "numeric"`). -/
def tldsDayNum : Option Int → String
  | none => "Invalid Date"
  | some t => natToDec (dublinDay t)

/-- Model of the `year: "numeric"` rendering used for `yearStr` and
`startYear`. -/
def tldsYear : Option Int → String
  | none => "Invalid Date"
  | some t => intToDec (dublinYear t)

/-- Embedding of `monthDayUS(d)`: `"Sep 6"` (month short, day numeric, in
Europe/Dublin), or `"Invalid Date"` on an Invalid Date. -/
def monthDayUS : Option Int → String
  | none => "Invalid Date"
  | some t => scat (monthShortName (dublinMonth t)) (scat " " (natToDec (dublinDay t)))

/-- Embedding of `formatTripDateRange(days)`. -/
def formatTripDateRange (days : List DayPlan) : String :=
  let starts := collectStarts days
  let ends := collectEnds days
  if starts.length = 0 ∨ ends.length = 0 then ""
  else
    let startD := jsMinD starts
    let endD := jsMaxD ends
    let sameYear := jsSameUTCYear startD endD
    if tldsMonthShort startD = tldsMonthShort endD ∧ sameYear = true then
      scat (tldsMonthShort startD)
        (scat " "
          (scat (tldsDayNum startD)
            (scat "–" (scat (tldsDayNum endD) (scat ", " (tldsYear endD))))))
    else if sameYear = true then
      scat (monthDayUS startD)
        (scat " – " (scat (monthDayUS endD) (scat ", " (tldsYear endD))))
    else
      scat (monthDayUS startD)
        (scat ", "
          (scat (tldsYear startD)
            (scat " – " (scat (monthDayUS endD) (scat ", " (tldsYear endD))))))

/-- Embedding of `filterDays(days, query)`. -/
def filterDays (days : List DayPlan) (query : String) : List DayPlan :=
  if query = "" ∨ trimStr query = "" then days
  else
    let q := lowerStr query
    (days.map (fun d =>
      { d with
        events := d.events.filter (fun e =>
          includesStr
            (lowerStr (joinSep " "
              ([e.title, e.location, e.notes.getD ""] ++ e.tags.getD [])))
            q) })).filter
      (fun d => d.events.length > 0)

/-- Embedding of the `updateEvent(dayId, evtId, updated)` state transition
of the store: the pure document-to-document function inside `setItin`. -/
def updateEvent (itin : Itinerary) (dayId evtId : String) (updated : EventItem) :
    Itinerary :=
  { itin with
    days := itin.days.map (fun d =>
      if d.id = dayId then
        { d with events := d.events.map (fun e => if e.id = evtId then updated else e) }
      else d) }

/-- Drop the first `n` characters of a string. -/
def dropChars (n : Nat) (s : String) : String := ⟨s.data.drop n⟩

/-- Check that a string is exactly 16 characters of the basic UTC timestamp
shape `YYYYMMDDTHHMMSSZ`: eight digits, a literal T, six digits, a literal
Z. -/
def isICS16 (v : String) : Bool :=
  match v.data with
  | [a, b, c, d, e, f, g, h, tc, i, j, k, l, m, n, zc] =>
    a.isDigit && b.isDigit && c.isDigit && d.isDigit &&
    e.isDigit && f.isDigit && g.isDigit && h.isDigit &&
    (tc == 'T') &&
    i.isDigit && j.isDigit && k.isDigit && l.isDigit && m.isDigit && n.isDigit &&
    (zc == 'Z')
  | _ => false

/-- Formalization of claim C1 exactly as stated, at one call of the
exporter: the output has exactly one `DTSTART:` line and exactly one
`DTEND:` line, and every such line is followed by exactly 16 characters of
the form `YYYYMMDDTHHMMSSZ`. -/
def claimC1Holds (now : Int) (rnd : String) (evt : EventItem) : Prop :=
  countStarting "DTSTART:" (linesOf (buildICSEvent now rnd evt)) = 1 ∧
  countStarting "DTEND:" (linesOf (buildICSEvent now rnd evt)) = 1 ∧
  (∀ l ∈ linesOf (buildICSEvent now rnd evt),
    startsStr "DTSTART:" l = true → isICS16 (dropChars 8 l) = true) ∧
  (∀ l ∈ linesOf (buildICSEvent now rnd evt),
    startsStr "DTEND:" l = true → isICS16 (dropChars 6 l) = true)

/-- Searchable-text match of one event, written from the words of the
specification: the lower-cased space-joined concatenation of title,
location, notes and tags (absent fields as the empty string) contains the
lower-cased query as a substring. -/
def eventMatches (query : String) (e : EventItem) : Bool :=
  includesStr
    (lowerStr (joinSep " " ([e.title, e.location, e.notes.getD ""] ++ e.tags.getD [])))
    (lowerStr query)

/-- Filtering written from the words of the specification: keep in each day
exactly the matching events, then drop every day left with no event,
preserving order throughout. -/
def filterDaysSpec (days : List DayPlan) (query : String) : List DayPlan :=
  days.filterMap (fun d =>
    let es := d.events.filter (eventMatches query)
    if es = [] then none else some { d with events := es })

/-- Concrete event fixture used by the witnesses. -/
def mkEvent (i ti lo s e : String) : EventItem :=
  { id := i, title := ti, location := lo, start := s, «end» := e }

/-- Concrete day fixture: the sample-trip opening dinner day. -/
def wDay1 : DayPlan :=
  { id := "2025-09-06", city := "Dublin",
    events := [mkEvent "sat6-dinner" "Dinner" "Matt the Thresher, Dublin"
      "2025-09-06T18:00:00Z" "2025-09-06T20:00:00Z"] }

/-- Concrete day fixture: the sample-trip closing golf day. -/
def wDay2 : DayPlan :=
  { id := "2025-09-13", city := "Kinsale",
    events := [mkEvent "oldhead-late" "Old Head Golf Links" "Old Head, Kinsale"
      "2025-09-13T10:00:00Z" "2025-09-13T15:30:00Z"] }

/-- Concrete event fixture with unparseable date strings. -/
def wBadEvent : EventItem := mkEvent "bad" "Broken" "Nowhere" "oops" "oops"

/-- Concrete day fixture containing a valid and an unparseable event. -/
def wDayWithBad : DayPlan :=
  { id := "2025-09-06", city := "Dublin",
    events := [mkEvent "sat6-dinner" "Dinner" "Matt the Thresher, Dublin"
      "2025-09-06T18:00:00Z" "2025-09-06T20:00:00Z", wBadEvent] }

/-- Concrete event fixture whose date entries are missing (empty strings). -/
def wMissingEvent : EventItem := mkEvent "missing" "NoDates" "Nowhere" "" ""

/-- Concrete day fixture with events listed out of chronological order: the
later event comes first. -/
def wOutOfOrderDay : DayPlan :=
  { id := "2025-09-07", city := "Dublin",
    events := [mkEvent "boxty-dinner" "Dinner late" "Boxty House"
      "2025-09-07T20:30:00Z" "2025-09-07T22:00:00Z",
      mkEvent "rdg1" "Royal Dublin" "Bull Island"
      "2025-09-07T13:00:00Z" "2025-09-07T20:00:00Z"] }

/-- Concrete itinerary fixture for the export and store witnesses. -/
def wItin : Itinerary :=
  { tripTitle := "Trip", subtitle := "Ireland | Sept", homeBase := "Dublin",
    participants := ["David"], days := [wDay1, wDay2], lodging := [], tips := [] }

/-- Concrete event fixture with an unparseable start (for the C1
counterexample). -/
def wC1Event : EventItem :=
  mkEvent "e1" "Dinner" "Dublin" "not-a-date" "2025-09-06T20:00:00Z"

/-- Concrete event fixture with no identifier (for the C9 witness). -/
def wNoIdEvent : EventItem :=
  mkEvent "" "Dinner" "Dublin" "2025-09-06T18:00:00Z" "2025-09-06T20:00:00Z"

/-- Concrete itinerary fixture with one day and zero events. -/
def wEmptyItin : Itinerary :=
  { tripTitle := "Trip", subtitle := "Ireland | Sept", homeBase := "Dublin",
    participants := ["David"],
    days := [{ id := "2025-09-06", city := "Dublin", events := [] }],
    lodging := [], tips := [] }

theorem mk_data (s : String) : String.mk s.data = s := rfl

theorem scat_data (a b : String) : (scat a b).data = a.data ++ b.data := rfl

theorem strEq_of_data {a b : String} (h : a.data = b.data) : a = b := by
  cases a; cases b; exact congrArg String.mk h

theorem scat_assoc (a b c : String) : scat (scat a b) c = scat a (scat b c) :=
  strEq_of_data (by simp [scat_data])

theorem joinSep_cons (sep s : String) (rest : List String) (h : rest ≠ []) :
    joinSep sep (s :: rest) = scat s (scat sep (joinSep sep rest)) := by
  cases rest with
  | nil => exact absurd rfl h
  | cons r rs => rfl

theorem joinSep_append (sep : String) (l₁ l₂ : List String) (h₁ : l₁ ≠ [])
    (h₂ : l₂ ≠ []) :
    joinSep sep (l₁ ++ l₂) = scat (joinSep sep l₁) (scat sep (joinSep sep l₂)) := by
  induction l₁ with
  | nil => exact absurd rfl h₁
  | cons x xs ih =>
    cases xs with
    | nil => rw [List.singleton_append, joinSep_cons sep x l₂ h₂]; rfl
    | cons y ys =>
      rw [List.cons_append, joinSep_cons sep x ((y :: ys) ++ l₂) (by simp),
        joinSep_cons sep x (y :: ys) (by simp), ih (by simp)]
      apply strEq_of_data
      simp [scat_data]

theorem listMapEqSelf {α : Type} {f : α → α} :
    ∀ {l : List α}, (∀ a ∈ l, f a = a) → l.map f = l
  | [], _ => rfl
  | a :: as, h => by
    rw [List.map_cons, h a (by simp), listMapEqSelf (fun x hx => h x (by simp [hx]))]

/-- C6: for every day list (including days with zero events), `filterDays`
with an empty or all-whitespace query is the identity, returning the input
day list unchanged in content and order. -/
theorem filterDays_empty_query (days : List DayPlan) (query : String)
    (h : query = "" ∨ trimStr query = "") : filterDays days query = days := by
  unfold filterDays
  exact if_pos h

/-- C6 witness: the identity holds concretely on a two-day list at an
all-whitespace query. -/
theorem filterDays_empty_query_witness :
    filterDays [wDay1, wDay2] "  " = [wDay1, wDay2] :=
  filterDays_empty_query [wDay1, wDay2] "  " (Or.inr (by decide))

/-- C8: the update-event store operation is a total function, and when no
day carries `dayId`, or every day carrying `dayId` has no event carrying
`evtId`, the resulting document equals the original (a no-op). -/
theorem updateEvent_noop (itin : Itinerary) (dayId evtId : String)
    (updated : EventItem)
    (h : (∀ d ∈ itin.days, d.id ≠ dayId) ∨
      (∀ d ∈ itin.days, d.id = dayId → ∀ e ∈ d.events, e.id ≠ evtId)) :
    updateEvent itin dayId evtId updated = itin := by
  unfold updateEvent
  have hmap : itin.days.map (fun d =>
      if d.id = dayId then
        { d with events := d.events.map (fun e => if e.id = evtId then updated else e) }
      else d) = itin.days := by
    apply listMapEqSelf
    intro d hd
    rcases h with h | h
    · rw [if_neg (h d hd)]
    · by_cases hid : d.id = dayId
      · rw [if_pos hid]
        have hev : d.events.map (fun e => if e.id = evtId then updated else e)
            = d.events :=
          listMapEqSelf (fun e he => if_neg (h d hd hid e he))
        rw [hev]
      · rw [if_neg hid]
  rw [hmap]

/-- C8 witness: updating with an identifier pair present in no day of a
concrete itinerary leaves the document unchanged. -/
theorem updateEvent_noop_witness :
    updateEvent wItin "2025-09-20" "ghost" wBadEvent = wItin :=
  updateEvent_noop wItin "2025-09-20" "ghost" wBadEvent (Or.inl (by decide))

/-- C10: every day returned by `filterDays` keeps the id, dateLabel, city
and notes of a corresponding input day; only its event list is narrowed (it
is a sublist of the input day's events). -/
theorem filterDays_frame (days : List DayPlan) (query : String) (d : DayPlan)
    (hd : d ∈ filterDays days query) :
    ∃ d0 ∈ days, d.id = d0.id ∧ d.dateLabel = d0.dateLabel ∧ d.city = d0.city ∧
      d.notes = d0.notes ∧ d.events.Sublist d0.events := by
  unfold filterDays at hd
  by_cases h : query = "" ∨ trimStr query = ""
  · rw [if_pos h] at hd
    exact ⟨d, hd, rfl, rfl, rfl, rfl, List.Sublist.refl _⟩
  · rw [if_neg h] at hd
    obtain ⟨hd1, -⟩ := List.mem_filter.mp hd
    obtain ⟨d0, hd0, rfl⟩ := List.mem_map.mp hd1
    exact ⟨d0, hd0, rfl, rfl, rfl, rfl, List.filter_sublist _⟩

/-- C10 witness: the day kept by a concrete filtered search agrees with its
input day on every field but the event list. -/
theorem filterDays_frame_witness :
    ∃ d0 ∈ [wDay1, wDay2], wDay2.id = d0.id ∧ wDay2.dateLabel = d0.dateLabel ∧
      wDay2.city = d0.city ∧ wDay2.notes = d0.notes ∧
      wDay2.events.Sublist d0.events :=
  filterDays_frame [wDay1, wDay2] "old head" wDay2 (by decide)

theorem filterMapShape (P : EventItem → Bool) (days : List DayPlan) :
    (days.map (fun d => { d with events := d.events.filter P })).filter
      (fun d => d.events.length > 0)
    = days.filterMap (fun d =>
        let es := d.events.filter P
        if es = [] then none else some { d with events := es }) := by
  induction days with
  | nil => rfl
  | cons d ds ih =>
    simp only [List.map_cons, List.filter_cons, List.filterMap_cons]
    by_cases hes : d.events.filter P = []
    · simp [hes, ih]
    · have : (d.events.filter P).length > 0 := by
        cases h : d.events.filter P with
        | nil => exact absurd h hes
        | cons a as => simp
      simp [hes, this, ih]

/-- C3: on a query that is neither empty nor all-whitespace, `filterDays`
computes exactly the specification filter: it keeps exactly the events
whose lower-cased space-joined title/location/notes/tags text contains the
lower-cased query as a substring, drops the days left with no event, and
preserves the order of days and of events. -/
theorem filterDays_query_spec (days : List DayPlan) (query : String)
    (h : trimStr query ≠ "") :
    filterDays days query = filterDaysSpec days query := by
  have hq : ¬(query = "" ∨ trimStr query = "") := by
    rintro (rfl | h2)
    · exact h rfl
    · exact h h2
  unfold filterDays filterDaysSpec
  rw [if_neg hq]
  exact filterMapShape _ days

/-- C3 witness: the equation holds concretely on the sample days for the
query "golf", which matches exactly one event title. -/
theorem filterDays_query_spec_witness :
    filterDays [wDay1, wDay2] "golf" = filterDaysSpec [wDay1, wDay2] "golf" :=
  filterDays_query_spec [wDay1, wDay2] "golf" (by decide)

theorem mem_insertAsc {a x : Int} :
    ∀ {l : List Int}, a ∈ insertAsc x l ↔ a = x ∨ a ∈ l := by
  intro l
  induction l with
  | nil => simp [insertAsc]
  | cons y ys ih =>
    unfold insertAsc
    by_cases h : x ≤ y
    · simp [h]
    · simp only [if_neg h, List.mem_cons, ih]
      tauto

theorem sortAsc_nil : ∀ {l : List Int}, sortAsc l = [] → l = []
  | [], _ => rfl
  | x :: xs, h => by
    unfold sortAsc at h
    cases hs : sortAsc xs with
    | nil => rw [hs] at h; simp [insertAsc] at h
    | cons b bs =>
      rw [hs] at h
      unfold insertAsc at h
      by_cases hxb : x ≤ b <;> simp [hxb] at h

theorem sortAsc_head :
    ∀ {l : List Int} {h0 : Int} {tl : List Int},
      sortAsc l = h0 :: tl → h0 ∈ l ∧ ∀ a ∈ l, h0 ≤ a := by
  intro l
  induction l with
  | nil => intro h0 tl hh; simp [sortAsc] at hh
  | cons x xs ih =>
    intro h0 tl hh
    unfold sortAsc at hh
    cases hs : sortAsc xs with
    | nil =>
      have hxs : xs = [] := sortAsc_nil hs
      rw [hs] at hh
      unfold insertAsc at hh
      injection hh with h1 h2
      subst h1; subst hxs
      exact ⟨by simp, by simp⟩
    | cons b bs =>
      rw [hs] at hh
      obtain ⟨hbmem, hble⟩ := ih hs
      unfold insertAsc at hh
      by_cases hxb : x ≤ b
      · rw [if_pos hxb] at hh
        injection hh with h1 h2
        subst h1
        refine ⟨by simp, ?_⟩
        intro a ha
        rcases List.mem_cons.mp ha with rfl | ha
        · exact le_refl a
        · exact le_trans hxb (hble a ha)
      · rw [if_neg hxb] at hh
        injection hh with h1 h2
        subst h1
        refine ⟨by simp [hbmem], ?_⟩
        intro a ha
        rcases List.mem_cons.mp ha with rfl | ha
        · omega
        · exact hble a ha

/-- C2: `formatDayLabel` renders the earliest valid (parseable) event start
of the day when one exists — not the first event in list order — and
otherwise renders the day identifier interpreted as midnight UTC of that
calendar date (the identifier concatenated with "T00:00:00Z" and parsed). -/
theorem formatDayLabel_spec (day : DayPlan) :
    (∀ t, t ∈ validStarts day → (∀ u ∈ validStarts day, t ≤ u) →
      formatDayLabel day = fmtWkdMonDay (some t)) ∧
    (validStarts day = [] →
      formatDayLabel day = fmtWkdMonDay (parseJSDate (scat day.id "T00:00:00Z"))) := by
  constructor
  · intro t ht hmin
    unfold formatDayLabel
    cases hs : sortAsc (validStarts day) with
    | nil =>
      rw [sortAsc_nil hs] at ht
      exact absurd ht (List.not_mem_nil t)
    | cons h0 tl =>
      obtain ⟨hmem, hle⟩ := sortAsc_head hs
      have heq : h0 = t := le_antisymm (hle t ht) (hmin h0 hmem)
      simp only [hs, heq]
  · intro hv
    unfold formatDayLabel
    rw [hv]
    rfl

/-- C2 witness: on a day whose two events are listed latest-first, the label
comes from the chronologically earliest valid start (the second event in
list order), 2025-09-07T13:00:00Z. -/
theorem formatDayLabel_spec_witness :
    formatDayLabel wOutOfOrderDay = fmtWkdMonDay (some 1757250000) :=
  (formatDayLabel_spec wOutOfOrderDay).1 1757250000 (by decide) (by decide)

theorem jsMinD_le :
    ∀ {l : List (Option Int)} {s : Int}, jsMinD l = some s →
      ∀ o ∈ l, ∃ v, o = some v ∧ s ≤ v := by
  intro l
  induction l with
  | nil => intro s h; exact Option.noConfusion h
  | cons x rest ih =>
    intro s h o ho
    cases rest with
    | nil =>
      rcases List.mem_singleton.mp ho with rfl
      exact ⟨s, h, le_refl s⟩
    | cons y ys =>
      have hstep : jsMinD (x :: y :: ys) = optMin2 x (jsMinD (y :: ys)) := rfl
      rw [hstep] at h
      cases hx : x with
      | none => rw [hx] at h; simp [optMin2] at h
      | some a =>
        cases hm : jsMinD (y :: ys) with
        | none => rw [hx, hm] at h; simp [optMin2] at h
        | some b =>
          rw [hx, hm] at h
          simp only [optMin2, Option.some.injEq] at h
          rcases List.mem_cons.mp ho with rfl | ho2
          · exact ⟨a, hx, by omega⟩
          · obtain ⟨v, hov, hbv⟩ := ih hm o ho2
            exact ⟨v, hov, by omega⟩

theorem jsMaxD_ge :
    ∀ {l : List (Option Int)} {e : Int}, jsMaxD l = some e →
      ∀ o ∈ l, ∃ v, o = some v ∧ v ≤ e := by
  intro l
  induction l with
  | nil => intro e h; exact Option.noConfusion h
  | cons x rest ih =>
    intro e h o ho
    cases rest with
    | nil =>
      rcases List.mem_singleton.mp ho with rfl
      exact ⟨e, h, le_refl e⟩
    | cons y ys =>
      have hstep : jsMaxD (x :: y :: ys) = optMax2 x (jsMaxD (y :: ys)) := rfl
      rw [hstep] at h
      cases hx : x with
      | none => rw [hx] at h; simp [optMax2] at h
      | some a =>
        cases hm : jsMaxD (y :: ys) with
        | none => rw [hx, hm] at h; simp [optMax2] at h
        | some b =>
          rw [hx, hm] at h
          simp only [optMax2, Option.some.injEq] at h
          rcases List.mem_cons.mp ho with rfl | ho2
          · exact ⟨a, hx, by omega⟩
          · obtain ⟨v, hov, hbv⟩ := ih hm o ho2
            exact ⟨v, hov, by omega⟩

/-- C4: when the collected starts have a (valid) minimum `s` and the
collected ends a (valid) maximum `e` — so `s` is the earliest collected
start instant and `e` the latest collected end instant, as the two extra
conjuncts state — and the two instants fall in the same Europe/Dublin
display month and the same year, `formatTripDateRange` returns the compact
form `"<Mon> <startDay>–<endDay>, <year>"`, an en-dash with no surrounding
spaces. -/
theorem formatTripDateRange_sameMonth (days : List DayPlan) (s e : Int)
    (hs : jsMinD (collectStarts days) = some s)
    (he : jsMaxD (collectEnds days) = some e)
    (hm : monthShortName (dublinMonth s) = monthShortName (dublinMonth e))
    (hy : utcYear s = utcYear e) :
    formatTripDateRange days =
      scat (monthShortName (dublinMonth s))
        (scat " "
          (scat (natToDec (dublinDay s))
            (scat "–" (scat (natToDec (dublinDay e)) (scat ", " (intToDec (dublinYear e)))))))
    ∧ (∀ o ∈ collectStarts days, ∃ v, o = some v ∧ s ≤ v)
    ∧ (∀ o ∈ collectEnds days, ∃ v, o = some v ∧ v ≤ e) := by
  refine ⟨?_, jsMinD_le hs, jsMaxD_ge he⟩
  unfold formatTripDateRange
  have h1 : ¬(collectStarts days).length = 0 := by
    intro hh
    rw [List.length_eq_zero.mp hh] at hs
    exact Option.noConfusion hs
  have h2 : ¬(collectEnds days).length = 0 := by
    intro hh
    rw [List.length_eq_zero.mp hh] at he
    exact Option.noConfusion he
  rw [if_neg (by tauto)]
  rw [hs, he]
  have hsy : jsSameUTCYear (some s) (some e) = true := by
    simp [jsSameUTCYear, hy]
  rw [if_pos ⟨by simpa [tldsMonthShort] using hm, hsy⟩]
  simp [tldsMonthShort, tldsDayNum, tldsYear]

/-- C4 witness: the sample-trip endpoints 2025-09-06T18:00:00Z and
2025-09-13T15:30:00Z produce the literal same-month range string with year
2025. -/
theorem formatTripDateRange_sameMonth_witness :
    formatTripDateRange [wDay1, wDay2] = "Sep 6–13, 2025" := by
  have h := (formatTripDateRange_sameMonth [wDay1, wDay2] 1757181600 1757777400
    (by decide) (by decide) (by decide) (by decide)).1
  rw [h]
  decide

/-- C5 counterexample: claim C5 fails as stated.  `wDayWithBad` is `wDay1`
with one extra event whose start and end strings are present but
unparseable; the claim says the range result should equal the result on the
day list with those entries removed (`[wDay1, wDay2]`), yet the unparseable
strings produce an Invalid Date that poisons the min/max and corrupts the
whole range string. -/
theorem formatTripDateRange_unparseable_corrupts :
    ¬(formatTripDateRange [wDayWithBad, wDay2] = formatTripDateRange [wDay1, wDay2]) ∧
    formatTripDateRange [wDayWithBad, wDay2] =
      "Invalid Date, Invalid Date – Invalid Date, Invalid Date" ∧
    formatTripDateRange [wDay1, wDay2] = "Sep 6–13, 2025" := by
  refine ⟨by decide, by decide, by decide⟩

theorem rangeCongr (l1 l2 : List DayPlan) (h1 : collectStarts l1 = collectStarts l2)
    (h2 : collectEnds l1 = collectEnds l2) :
    formatTripDateRange l1 = formatTripDateRange l2 := by
  unfold formatTripDateRange
  rw [h1, h2]

/-- C5 amended: `formatTripDateRange` skips only date entries that are
missing (empty strings, which are falsy): an event contributing neither a
start nor an end can be removed from a day without changing the range,
provided the day keeps at least one event (an event-free day switches to
its identifier fallback).  Present-but-unparseable strings are NOT skipped;
they corrupt the result, as the counterexample shows. -/
theorem formatTripDateRange_skips_missing (pre post : List DayPlan) (d : DayPlan)
    (epre epost : List EventItem) (e : EventItem)
    (hs : e.start = "") (he : e.«end» = "") (hne : epre ++ epost ≠ []) :
    formatTripDateRange (pre ++ { d with events := epre ++ e :: epost } :: post)
    = formatTripDateRange (pre ++ { d with events := epre ++ epost } :: post) := by
  have hlen1 : ({ d with events := epre ++ e :: epost } : DayPlan).events.length ≠ 0 := by
    simp
  have hlen2 : ({ d with events := epre ++ epost } : DayPlan).events.length ≠ 0 := by
    intro hz
    exact hne (List.length_eq_zero.mp hz)
  have hpe : (decide ¬e.start = "") = false := by simp [hs]
  have hpe2 : (decide ¬e.«end» = "") = false := by simp [he]
  apply rangeCongr
  · unfold collectStarts
    rw [List.flatMap_append, List.flatMap_append, List.flatMap_cons, List.flatMap_cons]
    have hd : dayStarts { d with events := epre ++ e :: epost }
        = dayStarts { d with events := epre ++ epost } := by
      unfold dayStarts
      rw [if_pos hlen1, if_pos hlen2]
      rw [show ({ d with events := epre ++ e :: epost } : DayPlan).events
        = epre ++ e :: epost from rfl]
      rw [show ({ d with events := epre ++ epost } : DayPlan).events
        = epre ++ epost from rfl]
      rw [List.filter_append, List.filter_cons, hpe, List.filter_append]
      simp
    rw [hd]
  · unfold collectEnds
    rw [List.flatMap_append, List.flatMap_append, List.flatMap_cons, List.flatMap_cons]
    have hd : dayEnds { d with events := epre ++ e :: epost }
        = dayEnds { d with events := epre ++ epost } := by
      unfold dayEnds
      rw [if_pos hlen1, if_pos hlen2]
      rw [show ({ d with events := epre ++ e :: epost } : DayPlan).events
        = epre ++ e :: epost from rfl]
      rw [show ({ d with events := epre ++ epost } : DayPlan).events
        = epre ++ epost from rfl]
      rw [List.filter_append, List.filter_cons, hpe2, List.filter_append]
      simp
    rw [hd]

/-- C5 amended witness: removing an event with missing (empty) date strings
from a concrete day that keeps another event leaves the range string
unchanged. -/
theorem formatTripDateRange_skips_missing_witness :
    formatTripDateRange
      ([] ++ { wDay1 with events := wDay1.events ++ wMissingEvent :: [] } :: [wDay2])
    = formatTripDateRange ([] ++ { wDay1 with events := wDay1.events ++ [] } :: [wDay2]) :=
  formatTripDateRange_skips_missing [] [wDay2] wDay1 wDay1.events [] wMissingEvent
    rfl rfl (by decide)

theorem decDigitsF_fuel :
    ∀ n f1 f2 : Nat, n ≤ f1 → n ≤ f2 → decDigitsF f1 n = decDigitsF f2 n := by
  intro n
  induction n using Nat.strong_induction_on with
  | _ n ih =>
    intro f1 f2 h1 h2
    cases n with
    | zero =>
      cases f1 <;> cases f2 <;> rfl
    | succ m =>
      cases f1 with
      | zero => omega
      | succ g1 =>
        cases f2 with
        | zero => omega
        | succ g2 =>
          simp only [decDigitsF]
          rw [ih ((m + 1) / 10) (by omega) g1 g2 (by omega) (by omega)]

theorem decDigits_succ (n : Nat) (h : n ≠ 0) :
    decDigits n = decDigits (n / 10) ++ [Nat.digitChar (n % 10)] := by
  cases n with
  | zero => exact absurd rfl h
  | succ m =>
    show decDigitsF (m + 1) (m + 1) = decDigitsF ((m + 1) / 10) ((m + 1) / 10) ++ _
    simp only [decDigitsF]
    rw [decDigitsF_fuel ((m + 1) / 10) m ((m + 1) / 10) (by omega) (by omega)]

theorem digitChar_isDigit : ∀ m : Nat, m < 10 → (Nat.digitChar m).isDigit = true := by
  decide

theorem decDigits_all :
    ∀ n : Nat, ∀ c ∈ decDigits n, c.isDigit = true := by
  intro n
  induction n using Nat.strong_induction_on with
  | _ n ih =>
    intro c hc
    cases Nat.eq_zero_or_pos n with
    | inl h0 => subst h0; simp [decDigits, decDigitsF] at hc
    | inr hpos =>
      rw [decDigits_succ n (by omega)] at hc
      rcases List.mem_append.mp hc with hc1 | hc2
      · exact ih (n / 10) (Nat.div_lt_self hpos (by decide)) c hc1
      · rw [List.mem_singleton.mp hc2]
        exact digitChar_isDigit (n % 10) (Nat.mod_lt n (by decide))

theorem decDigits_len :
    ∀ (k n : Nat), 10 ^ k ≤ n → n < 10 ^ (k + 1) → (decDigits n).length = k + 1 := by
  intro k
  induction k with
  | zero =>
    intro n h1 h2
    rw [decDigits_succ n (by simp at h1; omega)]
    rw [Nat.div_eq_of_lt (by simpa using h2)]
    rfl
  | succ j ih =>
    intro n h1 h2
    have hpow : 1 ≤ 10 ^ (j + 1) := Nat.one_le_pow (j + 1) 10 (by decide)
    rw [decDigits_succ n (by omega)]
    rw [List.length_append]
    have hb1 : 10 ^ j ≤ n / 10 := by
      rw [Nat.le_div_iff_mul_le (by decide)]
      calc 10 ^ j * 10 = 10 ^ (j + 1) := (pow_succ 10 j).symm
        _ ≤ n := h1
    have hb2 : n / 10 < 10 ^ (j + 1) := by
      rw [Nat.div_lt_iff_lt_mul (by decide)]
      calc n < 10 ^ (j + 2) := h2
        _ = 10 ^ (j + 1) * 10 := pow_succ 10 (j + 1)
    rw [ih (n / 10) hb1 hb2]
    rfl

theorem natToDec_digits (n : Nat) : ∀ c ∈ (natToDec n).data, c.isDigit = true := by
  intro c hc
  unfold natToDec at hc
  by_cases h : n = 0
  · rw [if_pos h] at hc
    rcases List.mem_singleton.mp hc with rfl
    decide
  · rw [if_neg h] at hc
    exact decDigits_all n c hc

theorem natToDec_four (n : Nat) (h1 : 1000 ≤ n) (h2 : n ≤ 9999) :
    ∃ a b c d : Char, (natToDec n).data = [a, b, c, d] ∧
      a.isDigit = true ∧ b.isDigit = true ∧ c.isDigit = true ∧ d.isDigit = true := by
  have hlen : (natToDec n).data.length = 4 := by
    unfold natToDec
    rw [if_neg (by omega)]
    exact decDigits_len 3 n (by omega) (by omega)
  obtain ⟨a, l1, hl1⟩ := List.exists_of_length_succ _ (by omega : (natToDec n).data.length = 3 + 1)
  rw [hl1] at hlen
  obtain ⟨b, l2, hl2⟩ := List.exists_of_length_succ l1 (by simpa using hlen)
  rw [hl2] at hlen
  obtain ⟨c, l3, hl3⟩ := List.exists_of_length_succ l2
    (show l2.length = 1 + 1 by simp at hlen; omega)
  rw [hl3] at hlen
  obtain ⟨d, l4, hl4⟩ := List.exists_of_length_succ l3
    (show l3.length = 0 + 1 by simp at hlen; omega)
  rw [hl4] at hlen
  have hl4nil : l4 = [] := by
    simpa using hlen
  subst hl4nil
  have hdata : (natToDec n).data = [a, b, c, d] := by rw [hl1, hl2, hl3, hl4]
  refine ⟨a, b, c, d, hdata, ?_, ?_, ?_, ?_⟩ <;>
    (apply natToDec_digits n; rw [hdata]; simp)

theorem pad2_two (n : Nat) (h : n ≤ 99) :
    ∃ a b : Char, (padStart2 (natToDec n)).data = [a, b] ∧
      a.isDigit = true ∧ b.isDigit = true := by
  by_cases h0 : n = 0
  · subst h0
    exact ⟨'0', '0', by decide, by decide, by decide⟩
  · by_cases h9 : n ≤ 9
    · have hlen : (natToDec n).data.length = 1 := by
        unfold natToDec
        rw [if_neg h0]
        exact decDigits_len 0 n (by omega) (by simpa using by omega)
      obtain ⟨a, l1, hl1⟩ := List.exists_of_length_succ _ (by omega : (natToDec n).data.length = 0 + 1)
      rw [hl1] at hlen
      have : l1 = [] := by
        simpa using hlen
      subst this
      refine ⟨'0', a, ?_, by decide, ?_⟩
      · unfold padStart2
        rw [hl1]
        rfl
      · apply natToDec_digits n
        rw [hl1]
        simp
    · have hlen : (natToDec n).data.length = 2 := by
        unfold natToDec
        rw [if_neg h0]
        exact decDigits_len 1 n (by omega) (by simpa using by omega)
      obtain ⟨a, l1, hl1⟩ := List.exists_of_length_succ _ (by omega : (natToDec n).data.length = 1 + 1)
      rw [hl1] at hlen
      obtain ⟨b, l2, hl2⟩ := List.exists_of_length_succ l1 (by simpa using hlen)
      rw [hl2] at hlen
      have : l2 = [] := by
        simpa using hlen
      subst this
      have hdata : (natToDec n).data = [a, b] := by rw [hl1, hl2]
      refine ⟨a, b, ?_, ?_, ?_⟩
      · unfold padStart2
        rw [hdata]
        rfl
      · apply natToDec_digits n; rw [hdata]; simp
      · apply natToDec_digits n; rw [hdata]; simp

theorem civilOfDays_bounds (z : Int) :
    1 ≤ (civilOfDays z).2.1 ∧ (civilOfDays z).2.1 ≤ 12 ∧
    1 ≤ (civilOfDays z).2.2 ∧ (civilOfDays z).2.2 ≤ 31 := by
  have h1 : 0 ≤ Int.emod (z + 719468) 146097 := Int.emod_nonneg _ (by decide)
  have h2 : Int.emod (z + 719468) 146097 < 146097 := Int.emod_lt_of_pos _ (by decide)
  unfold civilOfDays
  simp only []
  set doe := (Int.emod (z + 719468) 146097).toNat with hdoe
  have hd : doe ≤ 146096 := by omega
  set yoe := (doe - doe / 1460 + doe / 36524 - doe / 146096) / 365 with hyoe
  set doy := doe - (365 * yoe + yoe / 4 - yoe / 100) with hdoy
  set mp := (5 * doy + 2) / 153 with hmp
  by_cases hc : mp < 10 <;> simp [hc] <;> omega

theorem secOfDay_lt (t : Int) : secOfDay t < 86400 := by
  unfold secOfDay
  have h1 : 0 ≤ Int.emod t 86400 := Int.emod_nonneg _ (by decide)
  have h2 : Int.emod t 86400 < 86400 := Int.emod_lt_of_pos _ (by decide)
  omega

theorem isICS16_toICSDate (t : Int) (h1 : 1000 ≤ utcYear t) (h2 : utcYear t ≤ 9999) :
    isICS16 (toICSDate (some t)) = true := by
  have hy : intToDec (utcYear t) = natToDec (utcYear t).toNat := by
    unfold intToDec
    rw [if_neg (by omega)]
  obtain ⟨a, b, c, d, hdata, ha, hb, hc, hd⟩ :=
    natToDec_four (utcYear t).toNat (by omega) (by omega)
  have hmB := civilOfDays_bounds (epochDays t)
  obtain ⟨m1, m2, hm, hm1, hm2⟩ := pad2_two (utcMonth t) (by unfold utcMonth; omega)
  obtain ⟨e1, e2, hdd, he1, he2⟩ := pad2_two (utcDay t) (by unfold utcDay; omega)
  have hsec := secOfDay_lt t
  obtain ⟨f1, f2, hhm, hf1, hf2⟩ := pad2_two (secOfDay t / 3600) (by omega)
  obtain ⟨i1, i2, him, hi1, hi2⟩ := pad2_two (secOfDay t / 60 % 60) (by omega)
  obtain ⟨s1, s2, hsm, hs1, hs2⟩ := pad2_two (secOfDay t % 60) (by omega)
  have hfull : (toICSDate (some t)).data
      = a :: b :: c :: d :: m1 :: m2 :: e1 :: e2 :: 'T' ::
        f1 :: f2 :: i1 :: i2 :: s1 :: s2 :: 'Z' :: [] := by
    show (scat (intToDec (utcYear t))
      (scat (padStart2 (natToDec (utcMonth t)))
        (scat (padStart2 (natToDec (utcDay t)))
          (scat "T"
            (scat (padStart2 (natToDec (secOfDay t / 3600)))
              (scat (padStart2 (natToDec (secOfDay t / 60 % 60)))
                (scat (padStart2 (natToDec (secOfDay t % 60))) "Z"))))))).data = _
    rw [scat_data, scat_data, scat_data, scat_data, scat_data, scat_data, scat_data]
    rw [hy, hdata, hm, hdd, hhm, him, hsm]
    rfl
  unfold isICS16
  rw [hfull]
  simp [ha, hb, hc, hd, hm1, hm2, he1, he2, hf1, hf2, hi1, hi2, hs1, hs2]

theorem splitOnChar_ne_nil (c : Char) : ∀ l : List Char, splitOnChar c l ≠ []
  | [], h => by simp [splitOnChar] at h
  | a :: rest, h => by
    unfold splitOnChar at h
    cases hs : splitOnChar c rest with
    | nil => exact splitOnChar_ne_nil c rest hs
    | cons g gs =>
      rw [hs] at h
      by_cases hac : a = c <;> simp [hac] at h

theorem splitOnChar_not_mem {c : Char} :
    ∀ {l : List Char}, c ∉ l → splitOnChar c l = [l] := by
  intro l
  induction l with
  | nil => intro h; rfl
  | cons a rest ih =>
    intro h
    have har : c ∉ rest := fun hr => h (List.mem_cons_of_mem a hr)
    have hac : a ≠ c := fun he => h (he ▸ List.mem_cons_self a rest)
    unfold splitOnChar
    rw [ih har]
    simp [hac]

theorem splitOnChar_sep {c : Char} :
    ∀ {l : List Char}, c ∉ l → ∀ r : List Char,
      splitOnChar c (l ++ c :: r) = l :: splitOnChar c r := by
  intro l
  induction l with
  | nil =>
    intro h r
    show splitOnChar c (c :: r) = [] :: splitOnChar c r
    cases hs : splitOnChar c r with
    | nil => exact absurd hs (splitOnChar_ne_nil c r)
    | cons g gs =>
      show (match splitOnChar c r with
        | [] => [[]]
        | g2 :: gs2 => if c = c then [] :: g2 :: gs2 else (c :: g2) :: gs2)
        = [] :: g :: gs
      rw [hs]
      simp
  | cons a rest ih =>
    intro h r
    have har : c ∉ rest := fun hr => h (List.mem_cons_of_mem a hr)
    have hac : a ≠ c := fun he => h (he ▸ List.mem_cons_self a rest)
    show splitOnChar c (a :: (rest ++ c :: r)) = (a :: rest) :: splitOnChar c r
    cases hs : splitOnChar c r with
    | nil => exact absurd hs (splitOnChar_ne_nil c r)
    | cons g gs =>
      show (match splitOnChar c (rest ++ c :: r) with
        | [] => [[]]
        | g2 :: gs2 => if a = c then [] :: g2 :: gs2 else (a :: g2) :: gs2)
        = (a :: rest) :: g :: gs
      rw [ih har r, hs]
      simp [hac]

theorem linesOf_joinNL :
    ∀ {parts : List String}, parts ≠ [] → (∀ p ∈ parts, '\n' ∉ p.data) →
      linesOf (joinSep "\n" parts) = parts := by
  intro parts
  induction parts with
  | nil => intro h; exact absurd rfl h
  | cons p ps ih =>
    intro h hn
    cases ps with
    | nil =>
      show linesOf p = [p]
      unfold linesOf
      rw [splitOnChar_not_mem (hn p (by simp))]
      simp [mk_data]
    | cons q qs =>
      rw [joinSep_cons "\n" p (q :: qs) (by simp)]
      unfold linesOf
      rw [scat_data, scat_data]
      have hnl : ("\n".data ++ (joinSep "\n" (q :: qs)).data)
          = '\n' :: (joinSep "\n" (q :: qs)).data := rfl
      rw [hnl, splitOnChar_sep (hn p (by simp)) ((joinSep "\n" (q :: qs)).data)]
      rw [List.map_cons, mk_data]
      have := ih (by simp) (fun x hx => hn x (List.mem_cons_of_mem p hx))
      unfold linesOf at this
      rw [this]

theorem natToDec_no_nl (n : Nat) : '\n' ∉ (natToDec n).data := by
  intro h
  exact absurd (natToDec_digits n '\n' h) (by decide)

theorem intToDec_no_nl (i : Int) : '\n' ∉ (intToDec i).data := by
  unfold intToDec
  by_cases h : i < 0
  · rw [if_pos h, scat_data]
    intro hm
    rcases List.mem_append.mp hm with h1 | h2
    · exact absurd (List.mem_singleton.mp h1) (by decide)
    · exact natToDec_no_nl _ h2
  · rw [if_neg h]
    exact natToDec_no_nl _

theorem padStart2_no_nl {s : String} (h : '\n' ∉ s.data) :
    '\n' ∉ (padStart2 s).data := by
  unfold padStart2
  intro hm
  rcases List.mem_append.mp hm with h1 | h2
  · exact absurd (List.eq_of_mem_replicate h1) (by decide)
  · exact h h2

theorem toICSDate_no_nl : ∀ o : Option Int, '\n' ∉ (toICSDate o).data
  | none => by decide
  | some t => by
    show '\n' ∉ (scat (intToDec (utcYear t))
      (scat (padStart2 (natToDec (utcMonth t)))
        (scat (padStart2 (natToDec (utcDay t)))
          (scat "T"
            (scat (padStart2 (natToDec (secOfDay t / 3600)))
              (scat (padStart2 (natToDec (secOfDay t / 60 % 60)))
                (scat (padStart2 (natToDec (secOfDay t % 60))) "Z"))))))).data
    simp only [scat_data, List.mem_append, List.append_assoc]
    intro hm
    rcases hm with h | h | h | h | h | h | h | h
    · exact intToDec_no_nl _ h
    · exact padStart2_no_nl (natToDec_no_nl _) h
    · exact padStart2_no_nl (natToDec_no_nl _) h
    · exact absurd h (by decide)
    · exact padStart2_no_nl (natToDec_no_nl _) h
    · exact padStart2_no_nl (natToDec_no_nl _) h
    · exact padStart2_no_nl (natToDec_no_nl _) h
    · exact absurd h (by decide)

theorem escapeNl_no_nl (s : String) : '\n' ∉ (escapeNl s).data := by
  unfold escapeNl
  intro hm
  simp only [List.mem_flatMap] at hm
  obtain ⟨a, ha, hc⟩ := hm
  by_cases hA : a = '\n'
  · rw [if_pos hA] at hc
    rcases List.mem_cons.mp hc with h | h
    · exact absurd h (by decide)
    · exact absurd (List.mem_singleton.mp h) (by decide)
  · rw [if_neg hA] at hc
    exact hA (List.mem_singleton.mp hc).symm

theorem nlToSpace_no_nl (s : String) : '\n' ∉ (nlToSpace s).data := by
  unfold nlToSpace
  intro hm
  simp only [List.mem_map] at hm
  obtain ⟨a, ha, hc⟩ := hm
  by_cases hA : a = '\n'
  · rw [if_pos hA] at hc
    exact absurd hc (by decide)
  · rw [if_neg hA] at hc
    exact hA hc

theorem icsLinesEq (now : Int) (rnd : String) (evt : EventItem)
    (hu : '\n' ∉ (if evt.id = "" then rnd else evt.id).data) :
    linesOf (buildICSEvent now rnd evt) =
      ["BEGIN:VEVENT",
       scat "UID:" (scat (if evt.id = "" then rnd else evt.id) "@golf-itin"),
       scat "DTSTAMP:" (toICSDate (some now)),
       scat "DTSTART:" (toICSDate (parseJSDate evt.start)),
       scat "DTEND:" (toICSDate (parseJSDate evt.«end»)),
       scat "SUMMARY:" (nlToSpace (if evt.title = "" then "Event" else evt.title)),
       scat "LOCATION:" (escapeNl evt.location),
       scat "DESCRIPTION:" (escapeNl (evt.notes.getD "")),
       "END:VEVENT"] := by
  unfold buildICSEvent
  apply linesOf_joinNL (by simp)
  intro p hp
  simp only [List.mem_cons, List.not_mem_nil, or_false] at hp
  rcases hp with rfl | rfl | rfl | rfl | rfl | rfl | rfl | rfl | rfl
  · decide
  · rw [scat_data, scat_data]
    intro hm
    rcases List.mem_append.mp hm with h | h
    · exact absurd h (by decide)
    · rcases List.mem_append.mp h with h2 | h2
      · exact hu h2
      · exact absurd h2 (by decide)
  · rw [scat_data]
    intro hm
    rcases List.mem_append.mp hm with h | h
    · exact absurd h (by decide)
    · exact toICSDate_no_nl _ h
  · rw [scat_data]
    intro hm
    rcases List.mem_append.mp hm with h | h
    · exact absurd h (by decide)
    · exact toICSDate_no_nl _ h
  · rw [scat_data]
    intro hm
    rcases List.mem_append.mp hm with h | h
    · exact absurd h (by decide)
    · exact toICSDate_no_nl _ h
  · rw [scat_data]
    intro hm
    rcases List.mem_append.mp hm with h | h
    · exact absurd h (by decide)
    · exact nlToSpace_no_nl _ h
  · rw [scat_data]
    intro hm
    rcases List.mem_append.mp hm with h | h
    · exact absurd h (by decide)
    · exact escapeNl_no_nl _ h
  · rw [scat_data]
    intro hm
    rcases List.mem_append.mp hm with h | h
    · exact absurd h (by decide)
    · exact escapeNl_no_nl _ h
  · decide

theorem startsList_self_append : ∀ l r : List Char, startsList l (l ++ r) = true := by
  intro l r
  induction l with
  | nil => rfl
  | cons a as ih => simp [startsList, ih]

theorem startsStr_self (p rest : String) : startsStr p (scat p rest) = true := by
  unfold startsStr
  rw [scat_data]
  exact startsList_self_append p.data rest.data

theorem startsList_head_ne {a b : Char} (h : ¬a = b) (ps bs : List Char) :
    startsList (a :: ps) (b :: bs) = false := by
  simp [startsList, h]

theorem startsList_cons_same (a : Char) (ps bs : List Char) :
    startsList (a :: ps) (a :: bs) = startsList ps bs := by
  simp [startsList]

theorem countStart_DTSTART (u v w x y z1 z2 : String) :
    countStarting "DTSTART:"
      ["BEGIN:VEVENT", scat "UID:" u, scat "DTSTAMP:" v, scat "DTSTART:" w,
       scat "DTEND:" x, scat "SUMMARY:" y, scat "LOCATION:" z1,
       scat "DESCRIPTION:" z2, "END:VEVENT"] = 1 := by
  have h1 : startsStr "DTSTART:" "BEGIN:VEVENT" = false := by decide
  have h2 : startsStr "DTSTART:" (scat "UID:" u) = false :=
    startsList_head_ne (by decide) _ _
  have h3 : startsStr "DTSTART:" (scat "DTSTAMP:" v) = false := by
    show startsList ('D' :: 'T' :: 'S' :: 'T' :: 'A' :: ['R', 'T', ':'])
      ('D' :: 'T' :: 'S' :: 'T' :: 'A' :: 'M' :: 'P' :: ':' :: v.data) = false
    rw [startsList_cons_same, startsList_cons_same, startsList_cons_same,
      startsList_cons_same, startsList_cons_same]
    exact startsList_head_ne (by decide) _ _
  have h4 : startsStr "DTSTART:" (scat "DTSTART:" w) = true := startsStr_self _ _
  have h5 : startsStr "DTSTART:" (scat "DTEND:" x) = false := by
    show startsList ('D' :: 'T' :: ['S', 'T', 'A', 'R', 'T', ':'])
      ('D' :: 'T' :: 'E' :: 'N' :: 'D' :: ':' :: x.data) = false
    rw [startsList_cons_same, startsList_cons_same]
    exact startsList_head_ne (by decide) _ _
  have h6 : startsStr "DTSTART:" (scat "SUMMARY:" y) = false :=
    startsList_head_ne (by decide) _ _
  have h7 : startsStr "DTSTART:" (scat "LOCATION:" z1) = false :=
    startsList_head_ne (by decide) _ _
  have h8 : startsStr "DTSTART:" (scat "DESCRIPTION:" z2) = false := by
    show startsList ('D' :: ['T', 'S', 'T', 'A', 'R', 'T', ':'])
      ('D' :: 'E' :: 'S' :: 'C' :: 'R' :: 'I' :: 'P' :: 'T' :: 'I' :: 'O' :: 'N' :: ':' :: z2.data) = false
    rw [startsList_cons_same]
    exact startsList_head_ne (by decide) _ _
  have h9 : startsStr "DTSTART:" "END:VEVENT" = false := by decide
  unfold countStarting
  simp [List.filter_cons, h1, h2, h3, h4, h5, h6, h7, h8, h9]

theorem countStart_DTEND (u v w x y z1 z2 : String) :
    countStarting "DTEND:"
      ["BEGIN:VEVENT", scat "UID:" u, scat "DTSTAMP:" v, scat "DTSTART:" w,
       scat "DTEND:" x, scat "SUMMARY:" y, scat "LOCATION:" z1,
       scat "DESCRIPTION:" z2, "END:VEVENT"] = 1 := by
  have h1 : startsStr "DTEND:" "BEGIN:VEVENT" = false := by decide
  have h2 : startsStr "DTEND:" (scat "UID:" u) = false :=
    startsList_head_ne (by decide) _ _
  have h3 : startsStr "DTEND:" (scat "DTSTAMP:" v) = false := by
    show startsList ('D' :: 'T' :: ['E', 'N', 'D', ':'])
      ('D' :: 'T' :: 'S' :: 'T' :: 'A' :: 'M' :: 'P' :: ':' :: v.data) = false
    rw [startsList_cons_same, startsList_cons_same]
    exact startsList_head_ne (by decide) _ _
  have h4 : startsStr "DTEND:" (scat "DTSTART:" w) = false := by
    show startsList ('D' :: 'T' :: ['E', 'N', 'D', ':'])
      ('D' :: 'T' :: 'S' :: 'T' :: 'A' :: 'R' :: 'T' :: ':' :: w.data) = false
    rw [startsList_cons_same, startsList_cons_same]
    exact startsList_head_ne (by decide) _ _
  have h5 : startsStr "DTEND:" (scat "DTEND:" x) = true := startsStr_self _ _
  have h6 : startsStr "DTEND:" (scat "SUMMARY:" y) = false :=
    startsList_head_ne (by decide) _ _
  have h7 : startsStr "DTEND:" (scat "LOCATION:" z1) = false :=
    startsList_head_ne (by decide) _ _
  have h8 : startsStr "DTEND:" (scat "DESCRIPTION:" z2) = false := by
    show startsList ('D' :: ['T', 'E', 'N', 'D', ':'])
      ('D' :: 'E' :: 'S' :: 'C' :: 'R' :: 'I' :: 'P' :: 'T' :: 'I' :: 'O' :: 'N' :: ':' :: z2.data) = false
    rw [startsList_cons_same]
    exact startsList_head_ne (by decide) _ _
  have h9 : startsStr "DTEND:" "END:VEVENT" = false := by decide
  unfold countStarting
  simp [List.filter_cons, h1, h2, h3, h4, h5, h6, h7, h8, h9]

set_option maxRecDepth 4000 in
/-- C1 counterexample: claim C1 is false as stated.  On the event
`wC1Event`, whose start string "not-a-date" is unparseable, the exporter
does not crash, but the `DTSTART:` line is followed by the 20-character
value `NaNNaNNaNTNaNNaNNaNZ`, not by 16 characters of the form
`YYYYMMDDTHHMMSSZ`. -/
theorem buildICSEvent_c1_counterexample : ¬claimC1Holds 0 "r" wC1Event := by
  unfold claimC1Holds
  decide

/-- C1 amended: for every EventItem whose effective UID source (its id, or
the random fallback when the id is empty) contains no newline, the exporter
output — it is total, so it cannot crash — has exactly one `DTSTART:` line
(at index 3) and exactly one `DTEND:` line (at index 4), whose values are
`toICSDate` of the parsed start/end; such a value is 16 characters of the
form `YYYYMMDDTHHMMSSZ` whenever the date string parses to an instant whose
UTC year has four digits (an unparseable string instead yields the literal
`NaNNaNNaNTNaNNaNNaNZ`, by definition of `toICSDate`). -/
theorem buildICSEvent_lines_spec (now : Int) (rnd : String) (evt : EventItem)
    (hu : '\n' ∉ (if evt.id = "" then rnd else evt.id).data) :
    countStarting "DTSTART:" (linesOf (buildICSEvent now rnd evt)) = 1 ∧
    countStarting "DTEND:" (linesOf (buildICSEvent now rnd evt)) = 1 ∧
    (linesOf (buildICSEvent now rnd evt)).get? 3
      = some (scat "DTSTART:" (toICSDate (parseJSDate evt.start))) ∧
    (linesOf (buildICSEvent now rnd evt)).get? 4
      = some (scat "DTEND:" (toICSDate (parseJSDate evt.«end»))) ∧
    (∀ t : Int, (parseJSDate evt.start = some t ∨ parseJSDate evt.«end» = some t) →
      1000 ≤ utcYear t → utcYear t ≤ 9999 → isICS16 (toICSDate (some t)) = true) := by
  rw [icsLinesEq now rnd evt hu]
  exact ⟨countStart_DTSTART _ _ _ _ _ _ _, countStart_DTEND _ _ _ _ _ _ _, rfl, rfl,
    fun t _ hy1 hy2 => isICS16_toICSDate t hy1 hy2⟩

/-- C1 amended witness: on a concrete event with parseable 2025 dates there
is exactly one DTSTART line and the serialized start instant has the
16-character shape. -/
theorem buildICSEvent_lines_spec_witness :
    countStarting "DTSTART:" (linesOf (buildICSEvent 0 "r"
      (mkEvent "a" "Dinner" "Dublin" "2025-09-06T18:00:00Z" "2025-09-06T20:00:00Z"))) = 1 ∧
    isICS16 (toICSDate (some 1757181600)) = true :=
  ⟨(buildICSEvent_lines_spec 0 "r"
      (mkEvent "a" "Dinner" "Dublin" "2025-09-06T18:00:00Z" "2025-09-06T20:00:00Z")
      (by decide)).1,
   (buildICSEvent_lines_spec 0 "r"
      (mkEvent "a" "Dinner" "Dublin" "2025-09-06T18:00:00Z" "2025-09-06T20:00:00Z")
      (by decide)).2.2.2.2 1757181600 (Or.inl (by decide)) (by decide) (by decide)⟩

/-- C9: on an event whose identifier is empty (or absent), every call of the
exporter is total (no crash) and emits a `UID:` line whose local part —
before the fixed domain suffix `@golf-itin` — is the non-empty synthetic
identifier drawn for that call (`Math.random().toString(36).slice(2)`,
which for any draw in (0,1) is a non-empty newline-free digit string, here
the hypotheses on `rnd`). -/
theorem buildICSEvent_uid_synthetic (now : Int) (rnd : String) (evt : EventItem)
    (hid : evt.id = "") (hrnd : rnd ≠ "") (hnl : '\n' ∉ rnd.data) :
    ∃ u : String, u ≠ "" ∧
      (linesOf (buildICSEvent now rnd evt)).get? 1
        = some (scat "UID:" (scat u "@golf-itin")) := by
  refine ⟨rnd, hrnd, ?_⟩
  have hu : '\n' ∉ (if evt.id = "" then rnd else evt.id).data := by
    rw [if_pos hid]; exact hnl
  rw [icsLinesEq now rnd evt hu]
  rw [if_pos hid]
  rfl

/-- C9 witness: a concrete id-less event and a concrete non-empty draw give
the synthetic UID line. -/
theorem buildICSEvent_uid_synthetic_witness :
    ∃ u : String, u ≠ "" ∧
      (linesOf (buildICSEvent 0 "k7f3q" wNoIdEvent)).get? 1
        = some (scat "UID:" (scat u "@golf-itin")) :=
  buildICSEvent_uid_synthetic 0 "k7f3q" wNoIdEvent rfl (by decide) (by decide)

theorem joinSep_hdr_ftr (sep h1 h2 h3 f : String) (body : List String)
    (hb : body ≠ []) :
    joinSep sep ([h1, h2, h3] ++ [joinSep sep body] ++ [f])
    = joinSep sep ([h1, h2, h3] ++ body ++ [f]) := by
  have e1 : [h1, h2, h3] ++ [joinSep sep body] ++ [f]
      = [h1, h2, h3] ++ ([joinSep sep body] ++ [f]) := by simp
  have e2 : [h1, h2, h3] ++ body ++ [f] = [h1, h2, h3] ++ (body ++ [f]) := by simp
  rw [e1, e2]
  rw [joinSep_append sep [h1, h2, h3] ([joinSep sep body] ++ [f]) (by simp) (by simp)]
  rw [joinSep_append sep [h1, h2, h3] (body ++ [f]) (by simp) (by simp)]
  rw [joinSep_append sep [joinSep sep body] [f] (by simp) (by simp)]
  rw [joinSep_append sep body [f] hb (by simp)]
  rfl

/-- C7 counterexample: claim C7 is false as stated.  On the zero-event
itinerary `wEmptyItin` the full export is not the claimed line structure
(header lines, one record per event — here none — and the footer, newline
joined): the code joins `[...header, "", ...footer]`, so an extra empty
body line sits between the product identifier and `END:VCALENDAR`. -/
theorem downloadICSText_c7_counterexample :
    ¬(downloadICSText 0 (fun _ => "r") wEmptyItin none =
      joinSep "\n"
        (["BEGIN:VCALENDAR", "VERSION:2.0", "PRODID:-//Yu Ritual//Golf Trip//EN"]
          ++ ((wEmptyItin.days.flatMap (fun d => d.events)).enum).map
              (fun p => buildICSEvent 0 "r" p.2)
          ++ ["END:VCALENDAR"])) ∧
    downloadICSText 0 (fun _ => "r") wEmptyItin none =
      joinSep "\n"
        (["BEGIN:VCALENDAR", "VERSION:2.0", "PRODID:-//Yu Ritual//Golf Trip//EN"]
          ++ [""] ++ ["END:VCALENDAR"]) :=
  ⟨by decide, by decide⟩

/-- C7 amended: for every Itinerary with at least one event, the full export
(no single event given) is the header lines `BEGIN:VCALENDAR`,
`VERSION:2.0`, the fixed product identifier, then one event record per
event of every day in order, then `END:VCALENDAR`, all joined with a single
newline (with zero events the joined body is instead the empty string,
adding one blank line, as the counterexample shows); when a single event is
given, the body is only that event's record. -/
theorem downloadICSText_spec (now : Int) (rnds : Nat → String) (itin : Itinerary)
    (evt : EventItem) (h : itin.days.flatMap (fun d => d.events) ≠ []) :
    downloadICSText now rnds itin none =
      joinSep "\n"
        (["BEGIN:VCALENDAR", "VERSION:2.0", "PRODID:-//Yu Ritual//Golf Trip//EN"]
          ++ ((itin.days.flatMap (fun d => d.events)).enum).map
              (fun p => buildICSEvent now (rnds p.1) p.2)
          ++ ["END:VCALENDAR"]) ∧
    downloadICSText now rnds itin (some evt) =
      joinSep "\n"
        (["BEGIN:VCALENDAR", "VERSION:2.0", "PRODID:-//Yu Ritual//Golf Trip//EN"]
          ++ [buildICSEvent now (rnds 0) evt] ++ ["END:VCALENDAR"]) := by
  constructor
  · have hb : ((itin.days.flatMap (fun d => d.events)).enum).map
        (fun p => buildICSEvent now (rnds p.1) p.2) ≠ [] := by
      intro hc
      apply h
      rw [← List.length_eq_zero]
      have hlen := congrArg List.length hc
      simpa using hlen
    exact joinSep_hdr_ftr "\n" "BEGIN:VCALENDAR" "VERSION:2.0"
      "PRODID:-//Yu Ritual//Golf Trip//EN" "END:VCALENDAR" _ hb
  · rfl

/-- C7 witness: the export of a concrete two-day itinerary is the header,
its two event records in order, and the footer, newline-joined. -/
theorem downloadICSText_spec_witness :
    downloadICSText 0 (fun _ => "r") wItin none =
      joinSep "\n"
        (["BEGIN:VCALENDAR", "VERSION:2.0", "PRODID:-//Yu Ritual//Golf Trip//EN"]
          ++ ((wItin.days.flatMap (fun d => d.events)).enum).map
              (fun p => buildICSEvent 0 "r" p.2)
          ++ ["END:VCALENDAR"]) :=
  (downloadICSText_spec 0 (fun _ => "r") wItin wBadEvent (by decide)).1
